import Mathlib

/-!
Verification of the NSW property-sales ingestion pipeline of
sydney-catchment-explorer.

The development shallowly embeds the two source files the claims are about:

* `src/scripts/parsers/datParser.js` — the DAT flat-file parser
  (`parseDatFile`, `parseSaleRecord`, `parseLegalDescriptionRecord`,
  `parseInterestRecord`, `parseHeaderRecord`), embedded as pure functions
  over `String`/`List Char`.  JavaScript string primitives
  (`split`, `trim`, `parseInt`, `parseFloat`, `substring`, `||`-defaulting)
  are embedded as executable Lean functions with matching semantics; field
  access `fields[k]` on a possibly-too-short array is `List.get?`.
  JavaScript numbers are embedded as `Int` (parseInt results) and `ℚ`
  (parseFloat results, read as exact decimals).

* `src/scripts/ingestPropertySales.js` — the ingestion orchestrator
  (`isFileImported`, `logImportStart`, `logImportComplete`,
  `logImportFailed`, `insertSale`, `processFile`, `processDirectory`),
  embedded as explicit state passing over a `SalesDB` record that models the
  SQLite tables the script touches.  The storage engine itself is an
  external collaborator: whether a single row insert succeeds, raises a
  uniqueness violation, or fails otherwise is decided by the engine, so the
  per-record insert outcome is a parameter (`outcome`), and the possibility
  that the whole file's transaction throws is a parameter (`txFail`);
  a transaction failure rolls the sales tables back to their state at the
  start of the transaction, as better-sqlite3 guarantees.
-/

/-! ## JavaScript string/number primitives -/

/-- Digits-to-value accumulator for a list of decimal digit characters. -/
def digitsToNat (l : List Char) : Nat :=
  l.foldl (fun n c => n * 10 + (c.toNat - 48)) 0

/-- JavaScript `parseInt(s, 10)`: skip leading whitespace, optional sign,
then the longest prefix of decimal digits; `NaN` (here `none`) if that
prefix is empty. -/
def jsParseInt (s : String) : Option Int :=
  let cs := s.toList.dropWhile Char.isWhitespace
  match cs with
  | '-' :: r =>
    let d := r.takeWhile Char.isDigit
    if d.isEmpty then none else some (-(digitsToNat d : Int))
  | '+' :: r =>
    let d := r.takeWhile Char.isDigit
    if d.isEmpty then none else some (digitsToNat d : Int)
  | _ =>
    let d := cs.takeWhile Char.isDigit
    if d.isEmpty then none else some (digitsToNat d : Int)

/-- JavaScript `parseFloat(s)`: skip leading whitespace, optional sign,
decimal digits with an optional fractional part and an optional exponent;
`NaN` (here `none`) when no digit is found.  The result is read as an exact
decimal into `ℚ`.  (The `Infinity` literal never occurs in area fields and
is not modelled.) -/
def jsParseFloat (s : String) : Option ℚ :=
  let cs := s.toList.dropWhile Char.isWhitespace
  let sgn : Int := match cs with | '-' :: _ => -1 | _ => 1
  let rest := match cs with | '-' :: r => r | '+' :: r => r | _ => cs
  let intPart := rest.takeWhile Char.isDigit
  let rest2 := rest.dropWhile Char.isDigit
  let fracPart := match rest2 with | '.' :: r => r.takeWhile Char.isDigit | _ => []
  let rest3 := match rest2 with | '.' :: r => r.dropWhile Char.isDigit | _ => rest2
  if intPart.isEmpty && fracPart.isEmpty then none
  else
    let m : Nat := digitsToNat intPart * 10 ^ fracPart.length + digitsToNat fracPart
    let eParts : Int × List Char :=
      match rest3 with
      | 'e' :: '-' :: d | 'E' :: '-' :: d => (-1, d.takeWhile Char.isDigit)
      | 'e' :: '+' :: d | 'E' :: '+' :: d => (1, d.takeWhile Char.isDigit)
      | 'e' :: d | 'E' :: d => (1, d.takeWhile Char.isDigit)
      | _ => (1, [])
    let e := digitsToNat eParts.2
    some (if eParts.1 = 1 then
        mkRat (sgn * (m : Int) * (10 : Int) ^ e) (10 ^ fracPart.length)
      else
        mkRat (sgn * (m : Int)) (10 ^ (fracPart.length + e)))

/-- JavaScript `str.split(sep)` for a one-character separator, on char
lists: every occurrence of the separator splits, empty pieces included. -/
def splitOnChar (sep : Char) : List Char → List (List Char)
  | [] => [[]]
  | c :: rest =>
    if c = sep then [] :: splitOnChar sep rest
    else
      match splitOnChar sep rest with
      | [] => [[c]]
      | h :: t => (c :: h) :: t

/-- `line.split(';')` from the source, producing the positional fields. -/
def splitFields (line : String) : List String :=
  (splitOnChar ';' line.toList).map String.mk

/-- `content.split('\n')` from the source. -/
def splitNewlines (content : String) : List String :=
  (splitOnChar '\n' content.toList).map String.mk

/-- JavaScript `String.prototype.trim`: drop whitespace from both ends. -/
def jsTrim (s : String) : String :=
  String.mk (((s.toList.dropWhile Char.isWhitespace).reverse.dropWhile
    Char.isWhitespace).reverse)

/-- JavaScript `fields[k] || null`: `undefined` (index out of range) and the
empty string both collapse to `null`. -/
def jsStrOrNull (o : Option String) : Option String :=
  match o with
  | some s => if s = "" then none else some s
  | none => none

/-- JavaScript `parseInt(fields[3], 10) || 1`: a missing field, a
non-numeric field, and a parsed value of `0` (falsy) all default to `1`. -/
def jsSeqOr1 (o : Option String) : Int :=
  match o with
  | none => 1
  | some s =>
    match jsParseInt s with
    | none => 1
    | some n => if n = 0 then 1 else n

/-! ## Data model (datParser.js record shapes) -/

structure HeaderRecord where
  dataType : Option String
  districtCode : Option String
  timestamp : Option String
  source : Option String
deriving Repr, DecidableEq

structure LegalDescription where
  districtCode : Option String
  propertyId : Option String
  saleSequence : Int
  legalDescription : String
  lotNumber : Option String
  planNumber : Option String
  planType : String
deriving Repr, DecidableEq

structure InterestRecord where
  districtCode : Option String
  propertyId : Option String
  saleSequence : Int
  interestType : Option String
  interestDetail : Option String
deriving Repr, DecidableEq

structure SaleRecord where
  districtCode : Option String
  propertyId : Option String
  saleSequence : Int
  recordTimestamp : Option String
  unitNumber : Option String
  houseNumber : Option String
  streetName : Option String
  suburb : Option String
  postcode : Option String
  area : Option ℚ
  areaUnit : Option String
  contractDate : Option String
  settlementDate : Option String
  purchasePrice : Option Int
  zoneCode : Option String
  zoneCategory : Option String
  propertyType : Option String
  propertyDescription : Option String
  natureOfProperty : Option String
  strataLotNumber : Option String
  componentCode : Option String
  saleCode : Option String
  dealingNumber : Option String
  fileDate : Option String
  sourceFile : String
  legalDescriptions : List LegalDescription
  interests : List InterestRecord
deriving Repr, DecidableEq

structure ParseError where
  line : Nat
  content : String
  error : String
deriving Repr, DecidableEq

structure ParseResult where
  filename : String
  fileDate : Option String
  districtCode : Option String
  header : Option HeaderRecord
  sales : List SaleRecord
  parseErrors : List ParseError
deriving Repr, DecidableEq

/-! ## datParser.js -/

/-- `parseHeaderRecord(fields)`: the `A` record captures fields 1–4. -/
def parseHeaderRecord (fields : List String) : HeaderRecord :=
  { dataType := fields.get? 1
    districtCode := fields.get? 2
    timestamp := fields.get? 3
    source := fields.get? 4 }

/-- `parseDate` inside `parseSaleRecord`: a string of exactly 8 characters
becomes `YYYY-MM-DD`; anything else (missing, empty, wrong length) is
`null`. -/
def parseDate (o : Option String) : Option String :=
  match o with
  | none => none
  | some s =>
    let cs := s.toList
    if cs.length ≠ 8 then none
    else some (String.mk (cs.take 4 ++ '-' :: ((cs.drop 4).take 2) ++ '-' :: cs.drop 6))

/-- `cleaned = priceStr.replace(/[,\s]/g, '')` from `parsePrice`. -/
def stripCommaWs (s : String) : String :=
  String.mk (s.toList.filter (fun c => !(c == ',' || c.isWhitespace)))

/-- `parsePrice` inside `parseSaleRecord`: missing/empty is `null`;
otherwise commas and whitespace are stripped and the result is
`parseInt`ed, with `NaN` becoming `null`. -/
def parsePrice (o : Option String) : Option Int :=
  match o with
  | none => none
  | some s => if s = "" then none else jsParseInt (stripCommaWs s)

/-- `parseArea` inside `parseSaleRecord`: missing/empty is `null`;
otherwise `parseFloat`, with `NaN` becoming `null`. -/
def parseArea (o : Option String) : Option ℚ :=
  match o with
  | none => none
  | some s => if s = "" then none else jsParseFloat s

/-- `parseSaleRecord(fields, fileDate, sourceFile)`: the fixed positional
field mapping for a `B` record; position 6 is the extra empty field in the
source format and is intentionally skipped. -/
def parseSaleRecord (fields : List String) (fileDate : Option String)
    (sourceFile : String) : SaleRecord :=
  { districtCode := fields.get? 1
    propertyId := fields.get? 2
    saleSequence := jsSeqOr1 (fields.get? 3)
    recordTimestamp := fields.get? 4
    unitNumber := jsStrOrNull (fields.get? 5)
    houseNumber := jsStrOrNull (fields.get? 7)
    streetName := jsStrOrNull (fields.get? 8)
    suburb := jsStrOrNull (fields.get? 9)
    postcode := jsStrOrNull (fields.get? 10)
    area := parseArea (fields.get? 11)
    areaUnit := jsStrOrNull (fields.get? 12)
    contractDate := parseDate (fields.get? 13)
    settlementDate := parseDate (fields.get? 14)
    purchasePrice := parsePrice (fields.get? 15)
    zoneCode := jsStrOrNull (fields.get? 16)
    zoneCategory := jsStrOrNull (fields.get? 17)
    propertyType := jsStrOrNull (fields.get? 18)
    propertyDescription := jsStrOrNull (fields.get? 19)
    natureOfProperty := jsStrOrNull (fields.get? 20)
    strataLotNumber := jsStrOrNull (fields.get? 21)
    componentCode := jsStrOrNull (fields.get? 22)
    saleCode := jsStrOrNull (fields.get? 23)
    dealingNumber := jsStrOrNull (fields.get? 24)
    fileDate := fileDate
    sourceFile := sourceFile
    legalDescriptions := []
    interests := [] }

/-- The regex `^(\d+)\/(\d+)$` from `parseLegalDescriptionRecord`: the whole
string is a nonempty run of digits, one `/`, and a nonempty run of
digits. -/
def lotPlanMatch (l : List Char) : Option (List Char × List Char) :=
  let lot := l.takeWhile (fun c => c != '/')
  match l.dropWhile (fun c => c != '/') with
  | _ :: plan =>
    if !lot.isEmpty && lot.all Char.isDigit && !plan.isEmpty && plan.all Char.isDigit
    then some (lot, plan) else none
  | [] => none

/-- The regex `^SP(\d+)$/i` from `parseLegalDescriptionRecord`. -/
def spMatch (l : List Char) : Option (List Char) :=
  match l with
  | s :: p :: rest =>
    if (s == 'S' || s == 's') && (p == 'P' || p == 'p')
        && !rest.isEmpty && rest.all Char.isDigit
    then some rest else none
  | _ => none

/-- `parseLegalDescriptionRecord(fields)`: field 5 is the raw legal
description (`|| ''`); the `digits/digits` shape fills lot and plan with
the default plan type `DP`; an `SP<digits>` shape (checked second, as in
the source) overrides the plan type and plan number. -/
def parseLegalDescriptionRecord (fields : List String) : LegalDescription :=
  let legalDesc := (fields.get? 5).getD ""
  let lotPlan := lotPlanMatch legalDesc.toList
  let strata := spMatch legalDesc.toList
  { districtCode := fields.get? 1
    propertyId := fields.get? 2
    saleSequence := jsSeqOr1 (fields.get? 3)
    legalDescription := legalDesc
    lotNumber := match lotPlan with | some (a, _) => some (String.mk a) | none => none
    planNumber :=
      match strata with
      | some d => some (String.mk d)
      | none => match lotPlan with | some (_, b) => some (String.mk b) | none => none
    planType := match strata with | some _ => "SP" | none => "DP" }

/-- `fields.slice(6).join(';')` from `parseInterestRecord`. -/
def joinSemicolon : List String → List Char
  | [] => []
  | [s] => s.toList
  | s :: rest => s.toList ++ ';' :: joinSemicolon rest

/-- `parseInterestRecord(fields)`: field 5 is the interest type tag; all
fields from 6 onward are rejoined with `;` and trimmed, the empty result
becoming `null`. -/
def parseInterestRecord (fields : List String) : InterestRecord :=
  { districtCode := fields.get? 1
    propertyId := fields.get? 2
    saleSequence := jsSeqOr1 (fields.get? 3)
    interestType := jsStrOrNull (fields.get? 5)
    interestDetail :=
      let d := jsTrim (String.mk (joinSemicolon (fields.drop 6)))
      if d = "" then none else some d }

/-- The filename regexp `(\d{2})(\d{2})(\d{4})\.DAT$/i`: an 8-digit
`DDMMYYYY` run immediately before a case-insensitive `.DAT` extension at
the end of the name, rearranged to `YYYYMMDD`. -/
def extractFileDate (filename : String) : Option String :=
  let cs := filename.toList
  let n := cs.length
  if n < 12 then none
  else
    let ext := (cs.drop (n - 4)).map Char.toUpper
    let d8 := (cs.drop (n - 12)).take 8
    if ext = ['.', 'D', 'A', 'T'] ∧ d8.all Char.isDigit = true then
      some (String.mk (d8.drop 4 ++ (d8.take 4).drop 2 ++ d8.take 2))
    else none

/-- The filename regexp `^(\d{3})_`: a leading 3-digit district code before
the first underscore. -/
def extractDistrict (filename : String) : Option String :=
  match filename.toList with
  | a :: b :: c :: '_' :: _ =>
    if a.isDigit && b.isDigit && c.isDigit then some (String.mk [a, b, c]) else none
  | _ => none

/-- The mutable loop state of `parseDatFile`'s line loop. -/
structure ParseState where
  header : Option HeaderRecord
  sales : List SaleRecord
  currentSale : Option SaleRecord
  parseErrors : List ParseError
deriving Repr, DecidableEq

/-- The record-type tag of a line: the first `;`-separated field of the
trimmed line, as dispatched on by `parseDatFile`'s `switch`. -/
def recordTag (l : String) : String :=
  (splitFields (jsTrim l)).headD ""

/-- One iteration of `parseDatFile`'s line loop: trim the line, skip it if
blank, split into fields and dispatch on the record-type tag.  `B` pushes
any in-progress sale and starts a new one; `C`/`D` append a child to the
in-progress sale (and are dropped when none is in progress); any other tag
is recorded as a parse error with the 1-based line index and the line
content truncated to 100 characters. -/
def stepLine (fileDate : Option String) (filename : String) (i : Nat)
    (st : ParseState) (l : String) : ParseState :=
  let line := jsTrim l
  if line = "" then st
  else
    let fields := splitFields line
    let rt := fields.headD ""
    if rt = "A" then { st with header := some (parseHeaderRecord fields) }
    else if rt = "B" then
      { st with
        sales := st.sales ++ (match st.currentSale with | some s => [s] | none => [])
        currentSale := some (parseSaleRecord fields fileDate filename) }
    else if rt = "C" then
      match st.currentSale with
      | some s =>
        { st with currentSale := some { s with
            legalDescriptions := s.legalDescriptions ++ [parseLegalDescriptionRecord fields] } }
      | none => st
    else if rt = "D" then
      match st.currentSale with
      | some s =>
        { st with currentSale := some { s with
            interests := s.interests ++ [parseInterestRecord fields] } }
      | none => st
    else
      { st with parseErrors := st.parseErrors ++
          [{ line := i + 1
             content := String.mk (line.toList.take 100)
             error := "Unknown record type: " ++ rt }] }

/-- The indexed line loop of `parseDatFile`. -/
def runLines (fileDate : Option String) (filename : String) :
    Nat → ParseState → List String → ParseState
  | _, st, [] => st
  | i, st, l :: ls =>
    runLines fileDate filename (i + 1) (stepLine fileDate filename i st l) ls

/-- `content.split('\n').filter(line => line.trim())`: the lines the loop
iterates over. -/
def datLines (content : String) : List String :=
  (splitNewlines content).filter (fun l => jsTrim l != "")

/-- `parseDatFile(filePath)`, with the file read and `basename` already
performed: filename metadata extraction, the line loop, and the final push
of the last in-progress sale. -/
def parseDatFile (filename content : String) : ParseResult :=
  let fileDate := extractFileDate filename
  let districtCode := extractDistrict filename
  let st := runLines fileDate filename 0
    { header := none, sales := [], currentSale := none, parseErrors := [] }
    (datLines content)
  { filename := filename
    fileDate := fileDate
    districtCode := districtCode
    header := st.header
    sales := st.sales ++ (match st.currentSale with | some s => [s] | none => [])
    parseErrors := st.parseErrors }

/-! ## ingestPropertySales.js — database model -/

/-- `import_log.status` values used by the script. -/
inductive ImportStatus
  | processing
  | completed
  | failed
deriving Repr, DecidableEq

/-- One `import_log` row (the ImportAttempt ledger).  The wall-clock
`started_at`/`completed_at` columns are real time and are not modelled;
`file_path` always equals the filename here since the directory part plays
no role in the keyed lookups. -/
structure ImportLogRow where
  filename : String
  districtCode : String
  fileType : String
  fileDate : Option String
  status : ImportStatus
  errorMessage : Option String
  recordsProcessed : Nat
  recordsInserted : Nat
  recordsSkipped : Nat
  recordsError : Nat
deriving Repr, DecidableEq

/-- One `property_sales` row: the flattened sale record plus the run's
file type and the autoincrement id that links children to it. -/
structure SaleRow where
  id : Nat
  fileType : String
  sale : SaleRecord
deriving Repr, DecidableEq

/-- The SQLite tables the ingestion script writes. -/
structure SalesDB where
  importLog : List ImportLogRow
  propertySales : List SaleRow
  legalDescriptions : List (Nat × LegalDescription)
  saleInterests : List (Nat × InterestRecord)
deriving Repr, DecidableEq

/-- `isFileImported(db, filename, districtCode)`: is there a `completed`
import_log row for this (filename, district) key? -/
def isFileImported (db : SalesDB) (filename districtCode : String) : Bool :=
  db.importLog.any (fun r =>
    r.filename == filename && r.districtCode == districtCode
      && r.status == ImportStatus.completed)

/-- `logImportStart`: upsert keyed on (filename, district_code) — reset an
existing row to `processing` clearing its error, or insert a fresh
`processing` row.  (The source resolves the row id afterwards; rows are
identified here directly by the key, which the `ON CONFLICT` clause makes
unique.) -/
def logImportStart (db : SalesDB) (filename fileType : String)
    (fileDate : Option String) (districtCode : String) : SalesDB :=
  if db.importLog.any (fun r => r.filename == filename && r.districtCode == districtCode) then
    { db with importLog := db.importLog.map (fun r =>
        if r.filename == filename && r.districtCode == districtCode then
          { r with status := ImportStatus.processing, errorMessage := none }
        else r) }
  else
    { db with importLog := db.importLog ++
        [{ filename := filename, districtCode := districtCode, fileType := fileType
           fileDate := fileDate, status := ImportStatus.processing, errorMessage := none
           recordsProcessed := 0, recordsInserted := 0, recordsSkipped := 0
           recordsError := 0 }] }

/-- The per-file counters of `processFile` (`stats`). -/
structure BatchStats where
  processed : Nat
  inserted : Nat
  skipped : Nat
  errors : Nat
deriving Repr, DecidableEq

/-- `logImportComplete`: set the attempt `completed` with the final
counters. -/
def logImportComplete (db : SalesDB) (filename districtCode : String)
    (stats : BatchStats) : SalesDB :=
  { db with importLog := db.importLog.map (fun r =>
      if r.filename == filename && r.districtCode == districtCode then
        { r with status := ImportStatus.completed
                 recordsProcessed := stats.processed
                 recordsInserted := stats.inserted
                 recordsSkipped := stats.skipped
                 recordsError := stats.errors }
      else r) }

/-- `logImportFailed`: set the attempt `failed` with the error message. -/
def logImportFailed (db : SalesDB) (filename districtCode : String)
    (msg : String) : SalesDB :=
  { db with importLog := db.importLog.map (fun r =>
      if r.filename == filename && r.districtCode == districtCode then
        { r with status := ImportStatus.failed, errorMessage := some msg }
      else r) }

/-- `insertSale(db, sale, fileType)` when the statements succeed: insert
the sale row under a fresh autoincrement id, then its legal-description and
interest children keyed by that id. -/
def insertSaleDB (db : SalesDB) (sale : SaleRecord) (fileType : String) : SalesDB :=
  let saleId := db.propertySales.length + 1
  { db with
    propertySales := db.propertySales ++ [{ id := saleId, fileType := fileType, sale := sale }]
    legalDescriptions := db.legalDescriptions ++ sale.legalDescriptions.map (fun ld => (saleId, ld))
    saleInterests := db.saleInterests ++ sale.interests.map (fun it => (saleId, it)) }

/-- Outcome of one `insertSale` call as seen by the `try/catch` in
`processFile`'s transaction body: success, an error whose `code` is
`SQLITE_CONSTRAINT_UNIQUE`, or any other error. -/
inductive InsertResult
  | ok
  | uniqueViolation
  | otherError (msg : String)
deriving Repr, DecidableEq

/-- The natural key of a sale row: (district code, property id, sale
sequence, contract date). -/
def natKey (s : SaleRecord) : Option String × Option String × Int × Option String :=
  (s.districtCode, s.propertyId, s.saleSequence, s.contractDate)

/-- Modelled from the spec: the database schema (`src/scripts/db/schema.sql`)
is not in the repository sources; spec §3 states that the natural key
(district code, property id, sale sequence, contract date) is the unique
constraint duplicate suppression relies on.  Under that schema an insert
raises `SQLITE_CONSTRAINT_UNIQUE` exactly when a row with the same natural
key already exists, and succeeds otherwise. -/
def sqliteOutcome (db : SalesDB) (sale : SaleRecord) : InsertResult :=
  if db.propertySales.any (fun r => decide (natKey r.sale = natKey sale))
  then InsertResult.uniqueViolation else InsertResult.ok

/-- The transaction body of `processFile`: for every parsed sale, attempt
the insert; a `SQLITE_CONSTRAINT_UNIQUE` failure increments `skipped`, any
other failure increments `errors`, success performs the insert and
increments `inserted`; in every case the loop continues with the next
record.  The storage engine's verdict for each attempt is the `outcome`
parameter (instantiated with `sqliteOutcome` for the spec-modelled
schema). -/
def insertLoop (outcome : SalesDB → SaleRecord → InsertResult) (fileType : String) :
    SalesDB → BatchStats → List SaleRecord → SalesDB × BatchStats
  | db, stats, [] => (db, stats)
  | db, stats, sale :: rest =>
    match outcome db sale with
    | InsertResult.ok =>
      insertLoop outcome fileType (insertSaleDB db sale fileType)
        { stats with inserted := stats.inserted + 1 } rest
    | InsertResult.uniqueViolation =>
      insertLoop outcome fileType db { stats with skipped := stats.skipped + 1 } rest
    | InsertResult.otherError _ =>
      insertLoop outcome fileType db { stats with errors := stats.errors + 1 } rest

/-- What `processFile` returns: `{skipped: true}`, `{success: true, stats}`
or `{success: false, error}`. -/
inductive FileResult
  | skippedFile
  | succeeded (stats : BatchStats)
  | failed (msg : String)
deriving Repr, DecidableEq

/-- `parsed.districtCode || parsed.header?.districtCode || 'unknown'`:
first truthy value wins, the empty string being falsy. -/
def jsFirstTruthy : List (Option String) → String → String
  | [], d => d
  | some s :: rest, d => if s = "" then jsFirstTruthy rest d else s
  | none :: rest, d => jsFirstTruthy rest d

/-- The district used to key the ledger for a parsed file. -/
def districtFor (parsed : ParseResult) : String :=
  jsFirstTruthy [parsed.districtCode, parsed.header.bind (fun h => h.districtCode)] "unknown"

/-- `processFile(db, filePath, fileType, force)`: parse, determine the
district, skip when a completed attempt exists (unless forced), otherwise
upsert the attempt to `processing` and run the insert transaction.
`txFail filename` models an exception escaping the transaction itself (a
systemic storage failure): the batch's writes roll back to the
transaction-start state and the attempt is marked `failed`; otherwise the
batch commits and the attempt is marked `completed` with the counters. -/
def processFile (outcome : SalesDB → SaleRecord → InsertResult)
    (txFail : String → Option String) (db : SalesDB)
    (filename content fileType : String) (force : Bool) : SalesDB × FileResult :=
  let parsed := parseDatFile filename content
  let districtCode := districtFor parsed
  if !force && isFileImported db filename districtCode then
    (db, FileResult.skippedFile)
  else
    let db1 := logImportStart db filename fileType parsed.fileDate districtCode
    match txFail filename with
    | some msg => (logImportFailed db1 filename districtCode msg, FileResult.failed msg)
    | none =>
      let r := insertLoop outcome fileType db1
        { processed := parsed.sales.length, inserted := 0, skipped := 0, errors := 0 }
        parsed.sales
      (logImportComplete r.1 filename districtCode r.2, FileResult.succeeded r.2)

/-- The aggregate run report of `processDirectory` (`results`). -/
structure RunResults where
  total : Nat
  processed : Nat
  inserted : Nat
  skipped : Nat
  errors : Nat
deriving Repr, DecidableEq

/-- `f.toLowerCase().endsWith('.dat')`: the directory filter. -/
def isDatName (n : String) : Bool :=
  List.isSuffixOf ['.', 'd', 'a', 't'] (n.toList.map Char.toLower)

/-- The DAT files of a directory listing (filename paired with file
content). -/
def datFilter (files : List (String × String)) : List (String × String) :=
  files.filter (fun f => isDatName f.1)

/-- One iteration of `processDirectory`'s file loop: classify the
`processFile` result into the run counters. -/
def dirStep (outcome : SalesDB → SaleRecord → InsertResult)
    (txFail : String → Option String) (fileType : String) (force : Bool)
    (acc : SalesDB × RunResults) (file : String × String) : SalesDB × RunResults :=
  let r := processFile outcome txFail acc.1 file.1 file.2 fileType force
  match r.2 with
  | FileResult.skippedFile => (r.1, { acc.2 with skipped := acc.2.skipped + 1 })
  | FileResult.succeeded stats =>
    (r.1, { acc.2 with processed := acc.2.processed + 1
                       inserted := acc.2.inserted + stats.inserted })
  | FileResult.failed _ => (r.1, { acc.2 with errors := acc.2.errors + 1 })

/-- `processDirectory(db, dirPath, fileType, force)`: filter the listing to
`.dat` files and fold `processFile` over them, accumulating the report. -/
def processDirectory (outcome : SalesDB → SaleRecord → InsertResult)
    (txFail : String → Option String) (db : SalesDB)
    (files : List (String × String)) (fileType : String) (force : Bool) :
    SalesDB × RunResults :=
  (datFilter files).foldl (dirStep outcome txFail fileType force)
    (db, { total := (datFilter files).length, processed := 0, inserted := 0
           skipped := 0, errors := 0 })

/-! ## Theorems -/

/-- A file whose (filename, district) key already has a completed ledger
row is skipped by `processFile` without any database change when `force`
is off. -/
theorem processFile_skips_completed (outcome : SalesDB → SaleRecord → InsertResult)
    (txFail : String → Option String) (db : SalesDB) (n c ft : String)
    (h : isFileImported db n (districtFor (parseDatFile n c)) = true) :
    processFile outcome txFail db n c ft false = (db, FileResult.skippedFile) := by
  simp [processFile, h]

/-- Folding the directory loop over files that are all ledger-completed
only bumps the skip counter. -/
theorem foldl_dirStep_all_skip (outcome : SalesDB → SaleRecord → InsertResult)
    (txFail : String → Option String) (ft : String) :
    ∀ (files : List (String × String)) (db : SalesDB) (res : RunResults),
      (∀ f ∈ files, isFileImported db f.1 (districtFor (parseDatFile f.1 f.2)) = true) →
      files.foldl (dirStep outcome txFail ft false) (db, res)
        = (db, { res with skipped := res.skipped + files.length }) := by
  intro files
  induction files with
  | nil => intro db res _; simp
  | cons f fs ih =>
    intro db res h
    have hf : isFileImported db f.1 (districtFor (parseDatFile f.1 f.2)) = true :=
      h f (List.mem_cons_self f fs)
    have hstep : dirStep outcome txFail ft false (db, res) f
        = (db, { res with skipped := res.skipped + 1 }) := by
      simp [dirStep, processFile_skips_completed outcome txFail db f.1 f.2 ft hf]
    rw [List.foldl_cons, hstep,
      ih db { res with skipped := res.skipped + 1 } (fun g hg => h g (List.mem_cons_of_mem f hg))]
    simp [Nat.add_assoc, Nat.add_comm 1 fs.length]

/-- C1: For every directory all of whose files already have a completed
ImportAttempt recorded for their (filename, districtCode) key, re-running
`processDirectory` over the same unchanged directory with `force=false`
performs zero writes: the database (sales tables and ledger alike) is
returned unchanged, every file is reported as skipped via the ledger
check, and zero rows are inserted on the second run. -/
theorem processDirectory_ledger_idempotent
    (outcome : SalesDB → SaleRecord → InsertResult)
    (txFail : String → Option String) (db : SalesDB)
    (files : List (String × String)) (ft : String)
    (h : ∀ f ∈ datFilter files,
      isFileImported db f.1 (districtFor (parseDatFile f.1 f.2)) = true) :
    processDirectory outcome txFail db files ft false
      = (db, { total := (datFilter files).length, processed := 0, inserted := 0
               skipped := (datFilter files).length, errors := 0 }) := by
  unfold processDirectory
  rw [foldl_dirStep_all_skip outcome txFail ft (datFilter files) db _ h]
  simp

/-- Witness for C1: a directory with one `.dat` file whose key
(`"a.dat"`, `"unknown"`) has a completed ledger row is skipped outright. -/
theorem processDirectory_ledger_idempotent_witness :
    processDirectory sqliteOutcome (fun _ => none)
      { importLog := [{ filename := "a.dat", districtCode := "unknown"
                        fileType := "weekly", fileDate := none
                        status := ImportStatus.completed, errorMessage := none
                        recordsProcessed := 1, recordsInserted := 1
                        recordsSkipped := 0, recordsError := 0 }]
        propertySales := [], legalDescriptions := [], saleInterests := [] }
      [("a.dat", "B;214;1;1;ts;;;84;M RD;KR;2155;1;M;20251025;;100;R2;R;T;;N;;;SC;")]
      "weekly" false
      = ({ importLog := [{ filename := "a.dat", districtCode := "unknown"
                           fileType := "weekly", fileDate := none
                           status := ImportStatus.completed, errorMessage := none
                           recordsProcessed := 1, recordsInserted := 1
                           recordsSkipped := 0, recordsError := 0 }]
           propertySales := [], legalDescriptions := [], saleInterests := [] },
         { total := 1, processed := 0, inserted := 0, skipped := 1, errors := 0 }) := by
  exact processDirectory_ledger_idempotent sqliteOutcome (fun _ => none) _ _ "weekly"
    (by decide)

/-- The insert loop never removes previously inserted sale rows: the
starting table is always a prefix of the final one. -/
theorem insertLoop_preserves_rows (outcome : SalesDB → SaleRecord → InsertResult)
    (ft : String) : ∀ (sales : List SaleRecord) (db : SalesDB) (stats : BatchStats),
    ∃ ext, (insertLoop outcome ft db stats sales).1.propertySales
      = db.propertySales ++ ext := by
  intro sales
  induction sales with
  | nil => intro db stats; exact ⟨[], by simp [insertLoop]⟩
  | cons sale rest ih =>
    intro db stats
    unfold insertLoop
    cases houtcome : outcome db sale with
    | ok =>
      obtain ⟨ext, hext⟩ := ih (insertSaleDB db sale ft)
        { stats with inserted := stats.inserted + 1 }
      refine ⟨{ id := db.propertySales.length + 1, fileType := ft, sale := sale } :: ext, ?_⟩
      exact hext.trans (by simp [insertSaleDB])
    | uniqueViolation => exact ih db { stats with skipped := stats.skipped + 1 }
    | otherError msg => exact ih db { stats with errors := stats.errors + 1 }

/-- C2: Within one file's insert batch, a record whose insert raises a
uniqueness violation on the natural key is counted as skipped and not as an
error; any other per-record insertion failure increments the error
counter; in both cases (and in the success case) the loop simply continues
with the remaining records on the unchanged (resp. extended) database, so
previously inserted records of the same file are never rolled back.  The
last conjunct ties the abstract outcome to the spec-modelled schema: a
duplicate natural key is exactly what raises the uniqueness violation. -/
theorem insertLoop_error_routing (outcome : SalesDB → SaleRecord → InsertResult)
    (ft : String) (db : SalesDB) (stats : BatchStats) (sale : SaleRecord)
    (rest : List SaleRecord) (msg : String) :
    (outcome db sale = InsertResult.uniqueViolation →
      insertLoop outcome ft db stats (sale :: rest)
        = insertLoop outcome ft db { stats with skipped := stats.skipped + 1 } rest)
    ∧ (outcome db sale = InsertResult.otherError msg →
      insertLoop outcome ft db stats (sale :: rest)
        = insertLoop outcome ft db { stats with errors := stats.errors + 1 } rest)
    ∧ (outcome db sale = InsertResult.ok →
      insertLoop outcome ft db stats (sale :: rest)
        = insertLoop outcome ft (insertSaleDB db sale ft)
            { stats with inserted := stats.inserted + 1 } rest)
    ∧ (∀ sales, ∃ ext, (insertLoop outcome ft db stats sales).1.propertySales
        = db.propertySales ++ ext)
    ∧ ((∃ r ∈ db.propertySales, natKey r.sale = natKey sale) →
        sqliteOutcome db sale = InsertResult.uniqueViolation) := by
  refine ⟨fun h => ?_, fun h => ?_, fun h => ?_,
    fun sales => insertLoop_preserves_rows outcome ft sales db stats, fun h => ?_⟩
  · simp only [insertLoop, h]
  · simp only [insertLoop, h]
  · simp only [insertLoop, h]
  · obtain ⟨r, hr, hkey⟩ := h
    unfold sqliteOutcome
    rw [if_pos]
    exact List.any_eq_true.mpr ⟨r, hr, by simp [hkey]⟩

/-- Witness for C2: a concrete duplicate is routed to `skipped`, a concrete
other failure to `errors`, and a duplicate natural key concretely raises
the uniqueness violation under the spec-modelled schema. -/
theorem insertLoop_error_routing_witness :
    (insertLoop (fun _ _ => InsertResult.uniqueViolation) "weekly"
        { importLog := [], propertySales := [], legalDescriptions := [], saleInterests := [] }
        { processed := 1, inserted := 0, skipped := 0, errors := 0 }
        [parseSaleRecord (splitFields "B;214;1;1;ts;") none "f"]
      = insertLoop (fun _ _ => InsertResult.uniqueViolation) "weekly"
        { importLog := [], propertySales := [], legalDescriptions := [], saleInterests := [] }
        { processed := 1, inserted := 0, skipped := 1, errors := 0 } [])
    ∧ (insertLoop (fun _ _ => InsertResult.otherError "disk I/O error") "weekly"
        { importLog := [], propertySales := [], legalDescriptions := [], saleInterests := [] }
        { processed := 1, inserted := 0, skipped := 0, errors := 0 }
        [parseSaleRecord (splitFields "B;214;1;1;ts;") none "f"]
      = insertLoop (fun _ _ => InsertResult.otherError "disk I/O error") "weekly"
        { importLog := [], propertySales := [], legalDescriptions := [], saleInterests := [] }
        { processed := 1, inserted := 0, skipped := 0, errors := 1 } [])
    ∧ sqliteOutcome
        { importLog := []
          propertySales := [{ id := 1, fileType := "weekly"
                              sale := parseSaleRecord (splitFields "B;214;1;1;ts;") none "f" }]
          legalDescriptions := [], saleInterests := [] }
        (parseSaleRecord (splitFields "B;214;1;1;ts;") none "f")
        = InsertResult.uniqueViolation := by
  refine ⟨(insertLoop_error_routing _ "weekly" _ _ _ _ "x").1 rfl,
    (insertLoop_error_routing _ "weekly" _ _ _ _ "disk I/O error").2.1 rfl,
    (insertLoop_error_routing (fun _ _ => InsertResult.ok) "weekly" _
      { processed := 1, inserted := 0, skipped := 0, errors := 0 } _ [] "x").2.2.2.2 ?_⟩
  exact ⟨_, List.mem_singleton.mpr rfl, rfl⟩

/-- Each iteration of the insert loop increments exactly one of the three
counters, so the final counters account for every record exactly once, and
`processed` is never touched by the loop. -/
theorem insertLoop_stats (outcome : SalesDB → SaleRecord → InsertResult)
    (ft : String) : ∀ (sales : List SaleRecord) (db : SalesDB) (stats : BatchStats),
    (insertLoop outcome ft db stats sales).2.processed = stats.processed
    ∧ (insertLoop outcome ft db stats sales).2.inserted
        + (insertLoop outcome ft db stats sales).2.skipped
        + (insertLoop outcome ft db stats sales).2.errors
      = stats.inserted + stats.skipped + stats.errors + sales.length := by
  intro sales
  induction sales with
  | nil => intro db stats; simp [insertLoop]
  | cons sale rest ih =>
    intro db stats
    unfold insertLoop
    cases houtcome : outcome db sale with
    | ok =>
      obtain ⟨h1, h2⟩ := ih (insertSaleDB db sale ft)
        { stats with inserted := stats.inserted + 1 }
      exact ⟨h1, by rw [h2]; simp; omega⟩
    | uniqueViolation =>
      obtain ⟨h1, h2⟩ := ih db { stats with skipped := stats.skipped + 1 }
      exact ⟨h1, by rw [h2]; simp; omega⟩
    | otherError msg =>
      obtain ⟨h1, h2⟩ := ih db { stats with errors := stats.errors + 1 }
      exact ⟨h1, by rw [h2]; simp; omega⟩

/-- C10: For every file that `processFile` actually processes (it is not
skipped via the ledger and its transaction commits, i.e. the result is
`succeeded stats`), the final counters partition the parsed records:
`processed` equals the number of parsed SaleRecords of the file and
`inserted + skipped + errors = processed`. -/
theorem processFile_counters_partition (outcome : SalesDB → SaleRecord → InsertResult)
    (txFail : String → Option String) (db : SalesDB) (n c ft : String)
    (force : Bool) (stats : BatchStats)
    (h : (processFile outcome txFail db n c ft force).2 = FileResult.succeeded stats) :
    stats.processed = (parseDatFile n c).sales.length
    ∧ stats.inserted + stats.skipped + stats.errors = stats.processed := by
  unfold processFile at h
  dsimp only at h
  split at h
  · simp at h
  · split at h
    · simp at h
    · simp only [FileResult.succeeded.injEq] at h
      subst h
      obtain ⟨h1, h2⟩ := insertLoop_stats outcome ft (parseDatFile n c).sales
        (logImportStart db n ft (parseDatFile n c).fileDate
          (districtFor (parseDatFile n c)))
        { processed := (parseDatFile n c).sales.length, inserted := 0, skipped := 0
          errors := 0 }
      exact ⟨h1, by rw [h2, h1]; simp⟩

/-- Witness for C10: a concrete two-record file where one record inserts
and the other hits the uniqueness violation still satisfies
`inserted + skipped + errors = processed = 2`. -/
theorem processFile_counters_partition_witness :
    (processFile sqliteOutcome (fun _ => none)
        { importLog := [], propertySales := [], legalDescriptions := [], saleInterests := [] }
        "a.dat"
        "B;214;1;1;ts;;;84;M RD;KR;2155;1;M;20251025;;100;R2;\nB;214;1;1;ts;;;84;M RD;KR;2155;1;M;20251025;;100;R2;"
        "weekly" false).2
      = FileResult.succeeded
          { processed := 2, inserted := 1, skipped := 1, errors := 0 }
    ∧ (2 : Nat) = (parseDatFile "a.dat"
        "B;214;1;1;ts;;;84;M RD;KR;2155;1;M;20251025;;100;R2;\nB;214;1;1;ts;;;84;M RD;KR;2155;1;M;20251025;;100;R2;").sales.length
    ∧ (1 : Nat) + 1 + 0 = 2 := by
  have h : (processFile sqliteOutcome (fun _ => none)
      { importLog := [], propertySales := [], legalDescriptions := [], saleInterests := [] }
      "a.dat"
      "B;214;1;1;ts;;;84;M RD;KR;2155;1;M;20251025;;100;R2;\nB;214;1;1;ts;;;84;M RD;KR;2155;1;M;20251025;;100;R2;"
      "weekly" false).2
      = FileResult.succeeded
          { processed := 2, inserted := 1, skipped := 1, errors := 0 } := by decide
  have hp := processFile_counters_partition sqliteOutcome (fun _ => none) _ _ _ _ _ _ h
  exact ⟨h, hp.1, hp.2⟩

/-- After `logImportStart` there is always a `processing` ledger row for
the file's key (fresh or reset). -/
theorem logImportStart_has_row (db : SalesDB) (fn ft : String)
    (fd : Option String) (dc : String) :
    ∃ row ∈ (logImportStart db fn ft fd dc).importLog,
      row.filename = fn ∧ row.districtCode = dc
      ∧ row.status = ImportStatus.processing ∧ row.errorMessage = none := by
  unfold logImportStart
  split
  case isTrue hany =>
    obtain ⟨r, hr, hcond⟩ := List.any_eq_true.mp hany
    obtain ⟨h1, h2⟩ := Bool.and_eq_true_iff.mp hcond
    refine ⟨{ r with status := ImportStatus.processing, errorMessage := none }, ?_, ?_, ?_, rfl, rfl⟩
    · have := List.mem_map_of_mem (fun r =>
        if r.filename == fn && r.districtCode == dc then
          { r with status := ImportStatus.processing, errorMessage := none }
        else r) hr
      simpa [hcond] using this
    · exact eq_of_beq h1
    · exact eq_of_beq h2
  case isFalse =>
    refine ⟨{ filename := fn, districtCode := dc, fileType := ft, fileDate := fd
              status := ImportStatus.processing, errorMessage := none
              recordsProcessed := 0, recordsInserted := 0, recordsSkipped := 0
              recordsError := 0 }, ?_, rfl, rfl, rfl, rfl⟩
    simp

/-- `logImportFailed` turns every ledger row of the given key into a
`failed` row carrying the message. -/
theorem logImportFailed_has_row (db : SalesDB) (fn dc msg : String)
    (h : ∃ row ∈ db.importLog, row.filename = fn ∧ row.districtCode = dc) :
    ∃ row ∈ (logImportFailed db fn dc msg).importLog,
      row.filename = fn ∧ row.districtCode = dc
      ∧ row.status = ImportStatus.failed ∧ row.errorMessage = some msg := by
  obtain ⟨r, hr, h1, h2⟩ := h
  refine ⟨{ r with status := ImportStatus.failed, errorMessage := some msg }, ?_, h1, h2, rfl, rfl⟩
  have := List.mem_map_of_mem (fun r =>
    if r.filename == fn && r.districtCode == dc then
      { r with status := ImportStatus.failed, errorMessage := some msg }
    else r) hr
  simpa [logImportFailed, h1, h2] using this

/-- The directory loop's database component does not depend on the running
counters, and its error counter is the starting value plus the errors the
remaining files contribute. -/
theorem foldl_dirStep_shift (outcome : SalesDB → SaleRecord → InsertResult)
    (txFail : String → Option String) (ft : String) (force : Bool) :
    ∀ (files : List (String × String)) (db : SalesDB) (res : RunResults),
      ((files.foldl (dirStep outcome txFail ft force) (db, res)).1
        = (files.foldl (dirStep outcome txFail ft force)
            (db, { total := 0, processed := 0, inserted := 0, skipped := 0, errors := 0 })).1)
      ∧ ((files.foldl (dirStep outcome txFail ft force) (db, res)).2.errors
        = res.errors + (files.foldl (dirStep outcome txFail ft force)
            (db, { total := 0, processed := 0, inserted := 0, skipped := 0, errors := 0 })).2.errors) := by
  intro files
  induction files with
  | nil => intro db res; exact ⟨rfl, by simp⟩
  | cons file fs ih =>
    intro db res
    rcases hpf : processFile outcome txFail db file.1 file.2 ft force with ⟨db', fr⟩
    cases fr with
    | skippedFile =>
      have hs : ∀ r : RunResults, dirStep outcome txFail ft force (db, r) file
          = (db', { r with skipped := r.skipped + 1 }) := by
        intro r; simp [dirStep, hpf]
      rw [List.foldl_cons, List.foldl_cons, hs, hs]
      refine ⟨(ih db' _).1.trans (ih db' _).1.symm, ?_⟩
      conv_lhs => rw [(ih db' _).2]
      conv_rhs => rw [(ih db' _).2]
      dsimp only
      omega
    | succeeded stats =>
      have hs : ∀ r : RunResults, dirStep outcome txFail ft force (db, r) file
          = (db', { r with processed := r.processed + 1
                           inserted := r.inserted + stats.inserted }) := by
        intro r; simp [dirStep, hpf]
      rw [List.foldl_cons, List.foldl_cons, hs, hs]
      refine ⟨(ih db' _).1.trans (ih db' _).1.symm, ?_⟩
      conv_lhs => rw [(ih db' _).2]
      conv_rhs => rw [(ih db' _).2]
      dsimp only
      omega
    | failed msg =>
      have hs : ∀ r : RunResults, dirStep outcome txFail ft force (db, r) file
          = (db', { r with errors := r.errors + 1 }) := by
        intro r; simp [dirStep, hpf]
      rw [List.foldl_cons, List.foldl_cons, hs, hs]
      refine ⟨(ih db' _).1.trans (ih db' _).1.symm, ?_⟩
      conv_lhs => rw [(ih db' _).2]
      conv_rhs => rw [(ih db' _).2]
      dsimp only
      omega

/-- C9: For every file whose insert transaction itself fails with an
exception, `processFile` reports the failure, the file's ImportAttempt is
marked `failed` with the captured error message (the batch's own writes
having rolled back), and `processDirectory` carries on with the remaining
files exactly as it would from the post-failure database, counting the
failed file once in the run summary's `errors` total instead of aborting
the directory run. -/
theorem processFile_tx_failure (outcome : SalesDB → SaleRecord → InsertResult)
    (txFail : String → Option String) (db : SalesDB) (n c : String)
    (rest : List (String × String)) (ft : String) (force : Bool) (msg : String)
    (hdat : isDatName n = true)
    (htx : txFail n = some msg)
    (hrun : force = true ∨ isFileImported db n (districtFor (parseDatFile n c)) = false) :
    (processFile outcome txFail db n c ft force).2 = FileResult.failed msg
    ∧ (∃ row ∈ (processFile outcome txFail db n c ft force).1.importLog,
        row.filename = n ∧ row.districtCode = districtFor (parseDatFile n c)
        ∧ row.status = ImportStatus.failed ∧ row.errorMessage = some msg)
    ∧ (processDirectory outcome txFail db ((n, c) :: rest) ft force).1
        = (processDirectory outcome txFail
            (processFile outcome txFail db n c ft force).1 rest ft force).1
    ∧ (processDirectory outcome txFail db ((n, c) :: rest) ft force).2.errors
        = (processDirectory outcome txFail
            (processFile outcome txFail db n c ft force).1 rest ft force).2.errors + 1 := by
  have hcond : (!force && isFileImported db n (districtFor (parseDatFile n c))) = false := by
    rcases hrun with h | h <;> simp [h]
  have hpf : processFile outcome txFail db n c ft force
      = (logImportFailed
          (logImportStart db n ft (parseDatFile n c).fileDate (districtFor (parseDatFile n c)))
          n (districtFor (parseDatFile n c)) msg, FileResult.failed msg) := by
    unfold processFile
    dsimp only
    rw [hcond, htx]
    simp
  have hrow := logImportFailed_has_row
    (logImportStart db n ft (parseDatFile n c).fileDate (districtFor (parseDatFile n c)))
    n (districtFor (parseDatFile n c)) msg
    (by
      obtain ⟨row, hm, h1, h2, _, _⟩ := logImportStart_has_row db n ft
        (parseDatFile n c).fileDate (districtFor (parseDatFile n c))
      exact ⟨row, hm, h1, h2⟩)
  have hfilter : datFilter ((n, c) :: rest) = (n, c) :: datFilter rest := by
    simp [datFilter, hdat]
  have hstep : ∀ r : RunResults, dirStep outcome txFail ft force (db, r) (n, c)
      = ((processFile outcome txFail db n c ft force).1,
         { r with errors := r.errors + 1 }) := by
    intro r; simp [dirStep, hpf]
  refine ⟨by rw [hpf], by rw [hpf]; exact hrow, ?_, ?_⟩
  · unfold processDirectory
    rw [hfilter, List.foldl_cons, hstep]
    exact (foldl_dirStep_shift outcome txFail ft force (datFilter rest) _ _).1.trans
      (foldl_dirStep_shift outcome txFail ft force (datFilter rest) _ _).1.symm
  · unfold processDirectory
    rw [hfilter, List.foldl_cons, hstep]
    conv_lhs => rw [(foldl_dirStep_shift outcome txFail ft force (datFilter rest) _ _).2]
    conv_rhs => rw [(foldl_dirStep_shift outcome txFail ft force (datFilter rest) _ _).2]
    dsimp only
    omega

/-- Witness for C9: a one-file directory whose transaction throws
`disk I/O error` ends with a failed ledger row and one error counted. -/
theorem processFile_tx_failure_witness :
    (processFile sqliteOutcome (fun _ => some "disk I/O error")
        { importLog := [], propertySales := [], legalDescriptions := [], saleInterests := [] }
        "a.dat" "B;214;1;1;ts;" "weekly" false).2 = FileResult.failed "disk I/O error"
    ∧ (processDirectory sqliteOutcome (fun _ => some "disk I/O error")
        { importLog := [], propertySales := [], legalDescriptions := [], saleInterests := [] }
        [("a.dat", "B;214;1;1;ts;")] "weekly" false).2.errors
      = (processDirectory sqliteOutcome (fun _ => some "disk I/O error")
          (processFile sqliteOutcome (fun _ => some "disk I/O error")
            { importLog := [], propertySales := [], legalDescriptions := [], saleInterests := [] }
            "a.dat" "B;214;1;1;ts;" "weekly" false).1 [] "weekly" false).2.errors + 1 := by
  have h := processFile_tx_failure sqliteOutcome (fun _ => some "disk I/O error")
    { importLog := [], propertySales := [], legalDescriptions := [], saleInterests := [] }
    "a.dat" "B;214;1;1;ts;" [] "weekly" false "disk I/O error"
    (by decide) rfl (Or.inr (by decide))
  exact ⟨h.1, h.2.2.2⟩

/-- The spec's example `B` line. -/
def c4line : String :=
  "B;214;2876965;1;20251215 01:08;;;84;MERRIVILLE RD;KELLYVILLE RIDGE;2155;456.1;M;20251025;20251208;1565000;R2;R;RESIDENCE;;RKR;;;AV687428;"

/-- C4: Parsing the example `B` line yields the documented field values;
field position 6 is the intentionally-skipped empty field, so the house
number comes from position 7. -/
theorem parseSaleRecord_field_mapping :
    (splitFields c4line).get? 6 = some ""
    ∧ (splitFields c4line).get? 7 = some "84"
    ∧ (parseSaleRecord (splitFields c4line) (some "20251215")
        "214_SALES_DATA_NNME_15122025.DAT").houseNumber = some "84"
    ∧ (parseSaleRecord (splitFields c4line) (some "20251215")
        "214_SALES_DATA_NNME_15122025.DAT").streetName = some "MERRIVILLE RD"
    ∧ (parseSaleRecord (splitFields c4line) (some "20251215")
        "214_SALES_DATA_NNME_15122025.DAT").suburb = some "KELLYVILLE RIDGE"
    ∧ (parseSaleRecord (splitFields c4line) (some "20251215")
        "214_SALES_DATA_NNME_15122025.DAT").postcode = some "2155"
    ∧ (parseSaleRecord (splitFields c4line) (some "20251215")
        "214_SALES_DATA_NNME_15122025.DAT").area = some (mkRat 4561 10)
    ∧ (parseSaleRecord (splitFields c4line) (some "20251215")
        "214_SALES_DATA_NNME_15122025.DAT").areaUnit = some "M"
    ∧ (parseSaleRecord (splitFields c4line) (some "20251215")
        "214_SALES_DATA_NNME_15122025.DAT").contractDate = some "2025-10-25"
    ∧ (parseSaleRecord (splitFields c4line) (some "20251215")
        "214_SALES_DATA_NNME_15122025.DAT").settlementDate = some "2025-12-08"
    ∧ (parseSaleRecord (splitFields c4line) (some "20251215")
        "214_SALES_DATA_NNME_15122025.DAT").purchasePrice = some 1565000
    ∧ (parseSaleRecord (splitFields c4line) (some "20251215")
        "214_SALES_DATA_NNME_15122025.DAT").zoneCode = some "R2" := by
  decide

/-- The filename shape the date regexp accepts: some prefix, then 8 digit
characters, then a case-insensitive `.DAT` extension ending the name. -/
def hasDateSuffix (fn : String) : Prop :=
  ∃ p d, fn.toList = p ++ d ∧ d.length = 12
    ∧ (d.take 8).all Char.isDigit = true
    ∧ (d.drop 8).map Char.toUpper = ['.', 'D', 'A', 'T']

/-- The filename shape the district regexp accepts: three digits then an
underscore. -/
def hasDistrictCode (fn : String) : Prop :=
  ∃ a b c r, fn.toList = a :: b :: c :: '_' :: r
    ∧ a.isDigit = true ∧ b.isDigit = true ∧ c.isDigit = true

/-- C6: `"214_SALES_DATA_NNME_15122025.DAT"` yields district code `"214"`
and file date `"20251215"` (the `DDMMYYYY` suffix rearranged to
`YYYYMMDD`); `"data.DAT"` yields neither; and in general any filename not
matching the respective pattern leaves the field unset (no exception can
arise: both extractors are total functions). -/
theorem filename_metadata_extraction :
    (extractFileDate "214_SALES_DATA_NNME_15122025.DAT" = some "20251215"
      ∧ extractDistrict "214_SALES_DATA_NNME_15122025.DAT" = some "214"
      ∧ extractFileDate "data.DAT" = none
      ∧ extractDistrict "data.DAT" = none)
    ∧ (∀ fn, ¬ hasDateSuffix fn → extractFileDate fn = none)
    ∧ (∀ fn, ¬ hasDistrictCode fn → extractDistrict fn = none) := by
  refine ⟨by decide, fun fn h => ?_, fun fn h => ?_⟩
  · by_contra hne
    apply h
    obtain ⟨x, hx⟩ := Option.ne_none_iff_exists'.mp hne
    unfold extractFileDate at hx
    dsimp only at hx
    split at hx
    · exact absurd hx (by simp)
    · split at hx
      · rename_i hn hcond
        refine ⟨fn.toList.take (fn.toList.length - 12),
          fn.toList.drop (fn.toList.length - 12),
          (List.take_append_drop _ _).symm, ?_, hcond.2, ?_⟩
        · rw [List.length_drop]; omega
        · rw [List.drop_drop]
          have h84 : fn.toList.length - 12 + 8 = fn.toList.length - 4 := by omega
          rw [h84]; exact hcond.1
      · exact absurd hx (by simp)
  · by_contra hne
    apply h
    obtain ⟨x, hx⟩ := Option.ne_none_iff_exists'.mp hne
    unfold extractDistrict at hx
    split at hx
    · rename_i a b c rest heq
      split at hx
      · rename_i hdig
        simp only [Bool.and_eq_true] at hdig
        exact ⟨a, b, c, rest, heq, hdig.1.1, hdig.1.2, hdig.2⟩
      · exact absurd hx (by simp)
    · exact absurd hx (by simp)

/-- Witness for C6: the one-character filename `"x"` matches neither
pattern, so both fields come out unset. -/
theorem filename_metadata_extraction_witness :
    extractFileDate "x" = none ∧ extractDistrict "x" = none := by
  refine ⟨filename_metadata_extraction.2.1 "x" ?_, filename_metadata_extraction.2.2 "x" ?_⟩
  · rintro ⟨p, d, hEq, hLen, -, -⟩
    rw [show "x".toList = ['x'] from rfl] at hEq
    have hl := congrArg List.length hEq
    simp only [List.length_append, List.length_cons, List.length_nil] at hl
    omega
  · rintro ⟨a, b, c, r, hEq, -, -, -⟩
    rw [show "x".toList = ['x'] from rfl] at hEq
    have hl := congrArg List.length hEq
    simp only [List.length_cons, List.length_nil] at hl
    omega

/-- A decimal digit is not the slash character. -/
theorem digit_bne_slash {c : Char} (h : c.isDigit = true) : (c != '/') = true := by
  by_cases hc : c = '/'
  · subst hc; exact absurd h (by decide)
  · simp only [bne_iff_ne, ne_eq]; exact hc

/-- `spMatch` rejects any string whose first character is not `S`/`s`. -/
theorem spMatch_none_of_head {c : Char} {l : List Char}
    (h : (c == 'S' || c == 's') = false) : spMatch (c :: l) = none := by
  cases l with
  | nil => rfl
  | cons p rest => simp [spMatch, h]

/-- A decimal digit is neither `S` nor `s`. -/
theorem digit_not_S {c : Char} (h : c.isDigit = true) : (c == 'S' || c == 's') = false := by
  by_cases h1 : c = 'S'
  · subst h1; exact absurd h (by decide)
  · by_cases h2 : c = 's'
    · subst h2; exact absurd h (by decide)
    · simp [h1, h2]

/-- C7: For every `C` line's legal-description string: the
`digits/digits` shape yields that lot and plan number with plan type
`DP`; the case-insensitive `SP<digits>` shape yields that plan number with
plan type `SP` (and no lot number); any string matching neither shape
yields null lot and plan numbers while the raw string is preserved. -/
theorem parseLegalDescription_shapes :
    (∀ (fields : List String) (a b : List Char),
      a ≠ [] → a.all Char.isDigit = true → b ≠ [] → b.all Char.isDigit = true →
      fields.get? 5 = some (String.mk (a ++ '/' :: b)) →
      (parseLegalDescriptionRecord fields).lotNumber = some (String.mk a)
      ∧ (parseLegalDescriptionRecord fields).planNumber = some (String.mk b)
      ∧ (parseLegalDescriptionRecord fields).planType = "DP"
      ∧ (parseLegalDescriptionRecord fields).legalDescription = String.mk (a ++ '/' :: b))
    ∧ (∀ (fields : List String) (s p : Char) (d : List Char),
      (s = 'S' ∨ s = 's') → (p = 'P' ∨ p = 'p') → d ≠ [] → d.all Char.isDigit = true →
      fields.get? 5 = some (String.mk (s :: p :: d)) →
      (parseLegalDescriptionRecord fields).lotNumber = none
      ∧ (parseLegalDescriptionRecord fields).planNumber = some (String.mk d)
      ∧ (parseLegalDescriptionRecord fields).planType = "SP"
      ∧ (parseLegalDescriptionRecord fields).legalDescription = String.mk (s :: p :: d))
    ∧ (∀ (fields : List String) (str : String),
      fields.get? 5 = some str →
      lotPlanMatch str.toList = none → spMatch str.toList = none →
      (parseLegalDescriptionRecord fields).lotNumber = none
      ∧ (parseLegalDescriptionRecord fields).planNumber = none
      ∧ (parseLegalDescriptionRecord fields).legalDescription = str) := by
  refine ⟨fun fields a b ha hadig hb hbdig h5 => ?_,
    fun fields s p d hs hp hd hddig h5 => ?_,
    fun fields str h5 hlp hsp => ?_⟩
  · have hlist : (String.mk (a ++ '/' :: b)).toList = a ++ '/' :: b := rfl
    have hlp : lotPlanMatch (a ++ '/' :: b) = some (a, b) := by
      unfold lotPlanMatch
      rw [List.takeWhile_append_of_pos
          (fun c hc => digit_bne_slash (List.all_eq_true.mp hadig c hc)),
        List.dropWhile_append_of_pos
          (fun c hc => digit_bne_slash (List.all_eq_true.mp hadig c hc))]
      simp [ha, hb, hadig, hbdig]
    have hsp : spMatch (a ++ '/' :: b) = none := by
      cases a with
      | nil => exact absurd rfl ha
      | cons c a' =>
        have hc : c.isDigit = true := (List.all_eq_true.mp hadig c (by simp))
        rw [List.cons_append]
        exact spMatch_none_of_head (digit_not_S hc)
    simp only [parseLegalDescriptionRecord]
    rw [h5]
    simp [hlist, hlp, hsp]
  · have hlist : (String.mk (s :: p :: d)).toList = s :: p :: d := rfl
    have hall : ∀ c ∈ s :: p :: d, (c != '/') = true := by
      intro c hc
      rcases hc with _ | ⟨_, hc⟩
      · rcases hs with h | h <;> subst h <;> decide
      · rcases hc with _ | ⟨_, hc⟩
        · rcases hp with h | h <;> subst h <;> decide
        · exact digit_bne_slash (List.all_eq_true.mp hddig c hc)
    have hlp : lotPlanMatch (s :: p :: d) = none := by
      unfold lotPlanMatch
      rw [List.dropWhile_eq_nil_iff.mpr (fun c hc => by simpa using hall c hc)]
    have hspm : spMatch (s :: p :: d) = some d := by
      have h1 : (s == 'S' || s == 's') = true := by
        rcases hs with h | h <;> simp [h]
      have h2 : (p == 'P' || p == 'p') = true := by
        rcases hp with h | h <;> simp [h]
      simp [spMatch, h1, h2, hd, hddig]
    simp only [parseLegalDescriptionRecord]
    rw [h5]
    simp [hlist, hlp, hspm]
  · simp only [parseLegalDescriptionRecord]
    rw [h5]
    simp only [Option.getD_some]
    rw [show str.toList = str.data from rfl] at hlp hsp
    simp [hlp, hsp]

/-- Witness for C7: the spec's three example strings `"13/1032686"`,
`"SP12345"` and `"garbage"`. -/
theorem parseLegalDescription_shapes_witness :
    ((parseLegalDescriptionRecord (splitFields "C;214;2876965;1;ts;13/1032686;")).lotNumber
        = some (String.mk ['1', '3'])
      ∧ (parseLegalDescriptionRecord (splitFields "C;214;2876965;1;ts;13/1032686;")).planNumber
        = some (String.mk ['1', '0', '3', '2', '6', '8', '6'])
      ∧ (parseLegalDescriptionRecord (splitFields "C;214;2876965;1;ts;13/1032686;")).planType
        = "DP")
    ∧ ((parseLegalDescriptionRecord (splitFields "C;214;2876965;1;ts;SP12345;")).lotNumber
        = none
      ∧ (parseLegalDescriptionRecord (splitFields "C;214;2876965;1;ts;SP12345;")).planNumber
        = some (String.mk ['1', '2', '3', '4', '5'])
      ∧ (parseLegalDescriptionRecord (splitFields "C;214;2876965;1;ts;SP12345;")).planType
        = "SP")
    ∧ ((parseLegalDescriptionRecord (splitFields "C;214;2876965;1;ts;garbage;")).lotNumber
        = none
      ∧ (parseLegalDescriptionRecord (splitFields "C;214;2876965;1;ts;garbage;")).planNumber
        = none
      ∧ (parseLegalDescriptionRecord (splitFields "C;214;2876965;1;ts;garbage;")).legalDescription
        = "garbage") := by
  have h1 := parseLegalDescription_shapes.1 (splitFields "C;214;2876965;1;ts;13/1032686;")
    ['1', '3'] ['1', '0', '3', '2', '6', '8', '6']
    (by decide) (by decide) (by decide) (by decide) (by decide)
  have h2 := parseLegalDescription_shapes.2.1 (splitFields "C;214;2876965;1;ts;SP12345;")
    'S' 'P' ['1', '2', '3', '4', '5']
    (Or.inl rfl) (Or.inl rfl) (by decide) (by decide) (by decide)
  have h3 := parseLegalDescription_shapes.2.2 (splitFields "C;214;2876965;1;ts;garbage;")
    "garbage" (by decide) (by decide) (by decide)
  exact ⟨⟨h1.1, h1.2.1, h1.2.2.1⟩, ⟨h2.1, h2.2.1, h2.2.2.1⟩, ⟨h3.1, h3.2.1, h3.2.2⟩⟩

/-- C8: In `parseSaleRecord`, the purchase price is `parseInt`ed after
removing commas and whitespace with empty or non-numeric input yielding
null; the area is `parseFloat`ed under the same null-on-failure policy;
contract and settlement dates convert an exactly-8-character `YYYYMMDD`
string to `YYYY-MM-DD` and any other length yields null; and the sale
sequence defaults to `1` when the field is missing or non-numeric (its
type `Int` is not optional, so it is never null). -/
theorem parseSaleRecord_coercions :
    (∀ fields fd fn,
      (parseSaleRecord fields fd fn).purchasePrice = parsePrice (fields.get? 15)
      ∧ (parseSaleRecord fields fd fn).area = parseArea (fields.get? 11)
      ∧ (parseSaleRecord fields fd fn).contractDate = parseDate (fields.get? 13)
      ∧ (parseSaleRecord fields fd fn).settlementDate = parseDate (fields.get? 14)
      ∧ (parseSaleRecord fields fd fn).saleSequence = jsSeqOr1 (fields.get? 3))
    ∧ (parsePrice none = none ∧ parsePrice (some "") = none
      ∧ (∀ s, jsParseInt (stripCommaWs s) = none → parsePrice (some s) = none)
      ∧ (∀ s n, s ≠ "" → jsParseInt (stripCommaWs s) = some n →
          parsePrice (some s) = some n))
    ∧ (parseArea none = none ∧ parseArea (some "") = none
      ∧ (∀ s, jsParseFloat s = none → parseArea (some s) = none)
      ∧ (∀ s q, s ≠ "" → jsParseFloat s = some q → parseArea (some s) = some q))
    ∧ (parseDate none = none
      ∧ (∀ s, s.length ≠ 8 → parseDate (some s) = none)
      ∧ (∀ s, s.length = 8 → parseDate (some s)
          = some (String.mk (s.toList.take 4 ++ '-' :: ((s.toList.drop 4).take 2)
              ++ '-' :: s.toList.drop 6))))
    ∧ (jsSeqOr1 none = 1 ∧ ∀ s, jsParseInt s = none → jsSeqOr1 (some s) = 1) := by
  refine ⟨fun fields fd fn => ⟨rfl, rfl, rfl, rfl, rfl⟩,
    ⟨rfl, rfl, fun s h => ?_, fun s n hne h => ?_⟩,
    ⟨rfl, rfl, fun s h => ?_, fun s q hne h => ?_⟩,
    ⟨rfl, fun s h => ?_, fun s h => ?_⟩,
    ⟨rfl, fun s h => ?_⟩⟩
  · unfold parsePrice; dsimp only; split <;> simp [h]
  · unfold parsePrice; simp [hne, h]
  · unfold parseArea; dsimp only; split <;> simp [h]
  · unfold parseArea; simp [hne, h]
  · unfold parseDate; simp [h]
  · unfold parseDate; simp [h]
  · unfold jsSeqOr1; simp [h]

/-- Witness for C8: concrete coercions — a non-numeric price and area are
null, a comma-separated price parses, a wrong-length date is null, an
8-character date is dashed, a non-numeric sequence defaults to 1. -/
theorem parseSaleRecord_coercions_witness :
    parsePrice (some "abc") = none
    ∧ parsePrice (some "1,565,000") = some 1565000
    ∧ parseArea (some "xyz") = none
    ∧ parseDate (some "2025") = none
    ∧ parseDate (some "20251025")
        = some (String.mk ("20251025".toList.take 4
            ++ '-' :: (("20251025".toList.drop 4).take 2)
            ++ '-' :: "20251025".toList.drop 6))
    ∧ jsSeqOr1 (some "zz") = 1 := by
  refine ⟨parseSaleRecord_coercions.2.1.2.2.1 "abc" (by decide),
    parseSaleRecord_coercions.2.1.2.2.2 "1,565,000" 1565000 (by decide) (by decide),
    parseSaleRecord_coercions.2.2.1.2.2.1 "xyz" (by decide),
    parseSaleRecord_coercions.2.2.2.1.2.1 "2025" (by decide),
    parseSaleRecord_coercions.2.2.2.1.2.2 "20251025" (by decide),
    parseSaleRecord_coercions.2.2.2.2.2 "zz" (by decide)⟩

/-- A line that trims to the empty string has the empty record tag. -/
theorem recordTag_of_blank {l : String} (h : jsTrim l = "") : recordTag l = "" := by
  simp only [recordTag, h]
  rfl

/-- A line with a nonempty record tag does not trim to the empty string. -/
theorem tag_nonblank {l t : String} (h : recordTag l = t) (ht : t ≠ "") :
    jsTrim l ≠ "" :=
  fun hb => ht (h.symm.trans (recordTag_of_blank hb))

/-- A blank line is skipped by the loop body. -/
theorem stepLine_blank {l : String} (fd : Option String) (fn : String) (i : Nat)
    (st : ParseState) (h : jsTrim l = "") : stepLine fd fn i st l = st := by
  unfold stepLine
  dsimp only
  rw [if_pos h]

/-- An `A` line replaces the header and nothing else. -/
theorem stepLine_A {l : String} (fd : Option String) (fn : String) (i : Nat)
    (st : ParseState) (h : recordTag l = "A") :
    stepLine fd fn i st l
      = { st with header := some (parseHeaderRecord (splitFields (jsTrim l))) } := by
  have hne := tag_nonblank h (by decide)
  unfold recordTag at h
  unfold stepLine
  dsimp only
  rw [if_neg hne, h, if_pos rfl]

/-- A `B` line seen with no sale in progress starts a new in-progress sale
and pushes nothing. -/
theorem stepLine_B_none {l : String} (fd : Option String) (fn : String) (i : Nat)
    (st : ParseState) (h : recordTag l = "B") (hcur : st.currentSale = none) :
    stepLine fd fn i st l
      = { st with currentSale := some (parseSaleRecord (splitFields (jsTrim l)) fd fn) } := by
  have hne := tag_nonblank h (by decide)
  unfold recordTag at h
  unfold stepLine
  dsimp only
  rw [if_neg hne, h, if_neg (by decide), if_pos rfl, hcur]
  simp

/-- A `B` line seen while a sale is in progress finalizes the in-progress
sale (appending it to the output) and starts a new one. -/
theorem stepLine_B_some {l : String} (fd : Option String) (fn : String) (i : Nat)
    (st : ParseState) (s : SaleRecord) (h : recordTag l = "B")
    (hcur : st.currentSale = some s) :
    stepLine fd fn i st l
      = { st with sales := st.sales ++ [s]
                  currentSale := some (parseSaleRecord (splitFields (jsTrim l)) fd fn) } := by
  have hne := tag_nonblank h (by decide)
  unfold recordTag at h
  unfold stepLine
  dsimp only
  rw [if_neg hne, h, if_neg (by decide), if_pos rfl, hcur]

/-- A `C` line seen while a sale is in progress appends a legal
description to that sale. -/
theorem stepLine_C_some {l : String} (fd : Option String) (fn : String) (i : Nat)
    (st : ParseState) (s : SaleRecord) (h : recordTag l = "C")
    (hcur : st.currentSale = some s) :
    stepLine fd fn i st l
      = { st with currentSale := some { s with
          legalDescriptions := s.legalDescriptions
            ++ [parseLegalDescriptionRecord (splitFields (jsTrim l))] } } := by
  have hne := tag_nonblank h (by decide)
  unfold recordTag at h
  unfold stepLine
  dsimp only
  rw [if_neg hne, h, if_neg (by decide), if_neg (by decide), if_pos rfl, hcur]

/-- A `D` line seen while a sale is in progress appends an interest record
to that sale. -/
theorem stepLine_D_some {l : String} (fd : Option String) (fn : String) (i : Nat)
    (st : ParseState) (s : SaleRecord) (h : recordTag l = "D")
    (hcur : st.currentSale = some s) :
    stepLine fd fn i st l
      = { st with currentSale := some { s with
          interests := s.interests ++ [parseInterestRecord (splitFields (jsTrim l))] } } := by
  have hne := tag_nonblank h (by decide)
  unfold recordTag at h
  unfold stepLine
  dsimp only
  rw [if_neg hne, h, if_neg (by decide), if_neg (by decide), if_neg (by decide), if_pos rfl,
    hcur]

/-- An unknown record-type tag only appends a parse error carrying the
1-based line index, the line content truncated to 100 characters and the
offending tag; sales and the in-progress sale are untouched. -/
theorem stepLine_unknown {l : String} (fd : Option String) (fn : String) (i : Nat)
    (st : ParseState) (hne : jsTrim l ≠ "")
    (h : recordTag l ∉ (["A", "B", "C", "D"] : List String)) :
    stepLine fd fn i st l
      = { st with parseErrors := st.parseErrors
          ++ [{ line := i + 1
                content := String.mk ((jsTrim l).toList.take 100)
                error := "Unknown record type: " ++ recordTag l }] } := by
  have hA : recordTag l ≠ "A" := fun he => h (by simp [he])
  have hB : recordTag l ≠ "B" := fun he => h (by simp [he])
  have hC : recordTag l ≠ "C" := fun he => h (by simp [he])
  have hD : recordTag l ≠ "D" := fun he => h (by simp [he])
  unfold recordTag at hA hB hC hD
  unfold stepLine
  dsimp only
  rw [if_neg hne, if_neg hA, if_neg hB, if_neg hC, if_neg hD]
  rfl

/-- The line loop splits over list append, advancing the index by the
length of the first block. -/
theorem runLines_append (fd : Option String) (fn : String) :
    ∀ (xs ys : List String) (i : Nat) (st : ParseState),
      runLines fd fn i st (xs ++ ys)
        = runLines fd fn (i + xs.length) (runLines fd fn i st xs) ys := by
  intro xs
  induction xs with
  | nil => intro ys i st; simp [runLines]
  | cons x xs ih =>
    intro ys i st
    rw [List.cons_append]
    show runLines fd fn (i + 1) (stepLine fd fn i st x) (xs ++ ys) = _
    rw [ih]
    have hlen : i + 1 + xs.length = i + (x :: xs).length := by simp; omega
    rw [hlen]
    rfl

/-- A sale extended by the children carried by a block of `C`/`D` lines,
in order: the `C` lines' legal descriptions and the `D` lines' interests. -/
def extendCD (s : SaleRecord) (cds : List String) : SaleRecord :=
  { s with
    legalDescriptions := s.legalDescriptions
      ++ (cds.filter (fun l => recordTag l == "C")).map
          (fun l => parseLegalDescriptionRecord (splitFields (jsTrim l)))
    interests := s.interests
      ++ (cds.filter (fun l => recordTag l == "D")).map
          (fun l => parseInterestRecord (splitFields (jsTrim l))) }

theorem extendCD_nil (s : SaleRecord) : extendCD s [] = s := by
  simp [extendCD]

theorem extendCD_cons_C {l : String} (s : SaleRecord) (cds : List String)
    (h : recordTag l = "C") :
    extendCD s (l :: cds)
      = extendCD { s with legalDescriptions := s.legalDescriptions
          ++ [parseLegalDescriptionRecord (splitFields (jsTrim l))] } cds := by
  unfold extendCD
  rw [List.filter_cons_of_pos (by show (recordTag l == "C") = true; rw [h]; decide),
    List.filter_cons_of_neg (by show ¬((recordTag l == "D") = true); rw [h]; decide)]
  simp

theorem extendCD_cons_D {l : String} (s : SaleRecord) (cds : List String)
    (h : recordTag l = "D") :
    extendCD s (l :: cds)
      = extendCD { s with interests := s.interests
          ++ [parseInterestRecord (splitFields (jsTrim l))] } cds := by
  unfold extendCD
  rw [List.filter_cons_of_neg (by show ¬((recordTag l == "C") = true); rw [h]; decide),
    List.filter_cons_of_pos (by show (recordTag l == "D") = true; rw [h]; decide)]
  simp

/-- Running the loop over a block of `C`/`D` lines while a sale is in
progress only extends that sale's children. -/
theorem runLines_CD (fd : Option String) (fn : String) :
    ∀ (cds : List String) (i : Nat) (st : ParseState) (s : SaleRecord),
      (∀ l ∈ cds, recordTag l = "C" ∨ recordTag l = "D") →
      st.currentSale = some s →
      runLines fd fn i st cds = { st with currentSale := some (extendCD s cds) } := by
  intro cds
  induction cds with
  | nil =>
    intro i st s _ hcur
    rw [extendCD_nil]
    show st = _
    rw [← hcur]
  | cons l cds ih =>
    intro i st s hcd hcur
    show runLines fd fn (i + 1) (stepLine fd fn i st l) cds = _
    rcases hcd l (List.mem_cons_self l cds) with hC | hD
    · rw [stepLine_C_some fd fn i st s hC hcur]
      rw [ih (i + 1) _ _ (fun g hg => hcd g (List.mem_cons_of_mem l hg)) rfl]
      rw [extendCD_cons_C s cds hC]
    · rw [stepLine_D_some fd fn i st s hD hcur]
      rw [ih (i + 1) _ _ (fun g hg => hcd g (List.mem_cons_of_mem l hg)) rfl]
      rw [extendCD_cons_D s cds hD]

/-- C3: An input whose non-empty lines are a `B` record followed by
`C`/`D` lines, then a second `B` record followed by further `C`/`D`
lines, parses to exactly two SaleRecords; each child line attaches to the
most recent preceding `B` record and never cross-links; the new `B` line
finalizes the in-progress record and the last in-progress record is
emitted after the line loop ends. -/
theorem parseDatFile_record_boundaries (fn content b1 b2 : String)
    (cds1 cds2 : List String)
    (hlines : datLines content = b1 :: (cds1 ++ b2 :: cds2))
    (hb1 : recordTag b1 = "B") (hb2 : recordTag b2 = "B")
    (hcds : ∀ l ∈ cds1 ++ cds2, recordTag l = "C" ∨ recordTag l = "D") :
    (parseDatFile fn content).sales
      = [extendCD (parseSaleRecord (splitFields (jsTrim b1)) (extractFileDate fn) fn) cds1,
         extendCD (parseSaleRecord (splitFields (jsTrim b2)) (extractFileDate fn) fn) cds2] := by
  have hcds1 : ∀ l ∈ cds1, recordTag l = "C" ∨ recordTag l = "D" :=
    fun l hl => hcds l (List.mem_append_left _ hl)
  have hcds2 : ∀ l ∈ cds2, recordTag l = "C" ∨ recordTag l = "D" :=
    fun l hl => hcds l (List.mem_append_right _ hl)
  have hrun : runLines (extractFileDate fn) fn 0
      { header := none, sales := [], currentSale := none, parseErrors := [] }
      (b1 :: (cds1 ++ b2 :: cds2))
      = { header := none
          sales := [extendCD (parseSaleRecord (splitFields (jsTrim b1))
            (extractFileDate fn) fn) cds1]
          currentSale := some (extendCD (parseSaleRecord (splitFields (jsTrim b2))
            (extractFileDate fn) fn) cds2)
          parseErrors := [] } := by
    show runLines (extractFileDate fn) fn (0 + 1)
      (stepLine (extractFileDate fn) fn 0
        { header := none, sales := [], currentSale := none, parseErrors := [] } b1)
      (cds1 ++ b2 :: cds2) = _
    rw [stepLine_B_none _ _ _ _ hb1 rfl]
    rw [runLines_append]
    rw [runLines_CD _ _ cds1 _ _ _ hcds1 rfl]
    show runLines (extractFileDate fn) fn _
      (stepLine (extractFileDate fn) fn _ _ b2) cds2 = _
    rw [stepLine_B_some _ _ _ _ _ hb2 rfl]
    rw [runLines_CD _ _ cds2 _ _ _ hcds2 rfl]
    rfl
  unfold parseDatFile
  dsimp only
  rw [hlines, hrun]
  rfl

/-- Witness for C3: a concrete five-line file `B C D B C` parses to two
sales with their own children. -/
theorem parseDatFile_record_boundaries_witness :
    (parseDatFile "214_SALES_DATA_NNME_15122025.DAT"
        "B;214;2876965;1;ts;;;84;M RD;KR;2155;456.1;M;20251025;20251208;1565000;R2;\nC;214;2876965;1;ts;13/1032686;\nD;214;2876965;1;ts;P;\nB;214;111;2;ts;;;1;ST;SB;2000;1;M;20250101;;5;R2;\nC;214;111;2;ts;SP12345;").sales
      = [extendCD (parseSaleRecord
            (splitFields (jsTrim "B;214;2876965;1;ts;;;84;M RD;KR;2155;456.1;M;20251025;20251208;1565000;R2;"))
            (extractFileDate "214_SALES_DATA_NNME_15122025.DAT")
            "214_SALES_DATA_NNME_15122025.DAT")
          ["C;214;2876965;1;ts;13/1032686;", "D;214;2876965;1;ts;P;"],
         extendCD (parseSaleRecord
            (splitFields (jsTrim "B;214;111;2;ts;;;1;ST;SB;2000;1;M;20250101;;5;R2;"))
            (extractFileDate "214_SALES_DATA_NNME_15122025.DAT")
            "214_SALES_DATA_NNME_15122025.DAT")
          ["C;214;111;2;ts;SP12345;"]] := by
  exact parseDatFile_record_boundaries _ _ _ _
    ["C;214;2876965;1;ts;13/1032686;", "D;214;2876965;1;ts;P;"]
    ["C;214;111;2;ts;SP12345;"]
    (by decide) (by decide) (by decide) (by decide)

/-- A `C` line with no sale in progress is silently dropped. -/
theorem stepLine_C_none {l : String} (fd : Option String) (fn : String) (i : Nat)
    (st : ParseState) (h : recordTag l = "C") (hcur : st.currentSale = none) :
    stepLine fd fn i st l = st := by
  have hne := tag_nonblank h (by decide)
  unfold recordTag at h
  unfold stepLine
  dsimp only
  rw [if_neg hne, h, if_neg (by decide), if_neg (by decide), if_pos rfl, hcur]

/-- A `D` line with no sale in progress is silently dropped. -/
theorem stepLine_D_none {l : String} (fd : Option String) (fn : String) (i : Nat)
    (st : ParseState) (h : recordTag l = "D") (hcur : st.currentSale = none) :
    stepLine fd fn i st l = st := by
  have hne := tag_nonblank h (by decide)
  unfold recordTag at h
  unfold stepLine
  dsimp only
  rw [if_neg hne, h, if_neg (by decide), if_neg (by decide), if_neg (by decide), if_pos rfl,
    hcur]

/-- Lines with known tags (or blank lines) never contribute parse
errors. -/
theorem runLines_no_errors (fd : Option String) (fn : String) :
    ∀ (ls : List String) (i : Nat) (st : ParseState),
      (∀ l ∈ ls, jsTrim l = "" ∨ recordTag l ∈ (["A", "B", "C", "D"] : List String)) →
      (runLines fd fn i st ls).parseErrors = st.parseErrors := by
  intro ls
  induction ls with
  | nil => intro i st _; rfl
  | cons l ls ih =>
    intro i st h
    have htail : ∀ g ∈ ls, jsTrim g = "" ∨ recordTag g ∈ (["A", "B", "C", "D"] : List String) :=
      fun g hg => h g (List.mem_cons_of_mem l hg)
    show (runLines fd fn (i + 1) (stepLine fd fn i st l) ls).parseErrors = st.parseErrors
    rcases h l (List.mem_cons_self l ls) with hb | htag
    · rw [stepLine_blank fd fn i st hb, ih _ _ htail]
    · simp only [List.mem_cons, List.mem_singleton, List.not_mem_nil, or_false] at htag
      rcases htag with hA | hB | hC | hD
    
      · rw [stepLine_A fd fn i st hA, ih _ _ htail]
      · cases hcs : st.currentSale with
        | none => rw [stepLine_B_none fd fn i st hB hcs, ih _ _ htail]
        | some s => rw [stepLine_B_some fd fn i st s hB hcs, ih _ _ htail]
      · cases hcs : st.currentSale with
        | none => rw [stepLine_C_none fd fn i st hC hcs, ih _ _ htail]
        | some s => rw [stepLine_C_some fd fn i st s hC hcs, ih _ _ htail]
      · cases hcs : st.currentSale with
        | none => rw [stepLine_D_none fd fn i st hD hcs, ih _ _ htail]
        | some s => rw [stepLine_D_some fd fn i st s hD hcs, ih _ _ htail]

/-- C5: `parseDatFile` is a total function, so no exception escapes it for
any input.  An unknown record-type tag on a line is captured as a
parseErrors entry — 1-based line number, line content truncated to a
100-character preview, error description — after which processing simply
continues with the remaining lines; lines with known tags contribute no
errors; the empty file parses to an empty result; and a file with one
garbage line between two valid `B` records still yields both SaleRecords
and exactly that one error entry. -/
theorem parseDatFile_resilience :
    (∀ (fd : Option String) (fn : String) (i : Nat) (st : ParseState)
        (l : String) (ls : List String),
      jsTrim l ≠ "" → recordTag l ∉ (["A", "B", "C", "D"] : List String) →
      runLines fd fn i st (l :: ls)
        = runLines fd fn (i + 1)
            { st with parseErrors := st.parseErrors
                ++ [{ line := i + 1
                      content := String.mk ((jsTrim l).toList.take 100)
                      error := "Unknown record type: " ++ recordTag l }] } ls)
    ∧ (∀ (fd : Option String) (fn : String) (ls : List String) (i : Nat) (st : ParseState),
      (∀ l ∈ ls, jsTrim l = "" ∨ recordTag l ∈ (["A", "B", "C", "D"] : List String)) →
      (runLines fd fn i st ls).parseErrors = st.parseErrors)
    ∧ (∀ fn, parseDatFile fn ""
        = { filename := fn, fileDate := extractFileDate fn
            districtCode := extractDistrict fn, header := none
            sales := [], parseErrors := [] })
    ∧ (∀ (fn content b1 bad b2 : String),
      datLines content = [b1, bad, b2] →
      recordTag b1 = "B" → recordTag b2 = "B" →
      jsTrim bad ≠ "" → recordTag bad ∉ (["A", "B", "C", "D"] : List String) →
      (parseDatFile fn content).sales
        = [parseSaleRecord (splitFields (jsTrim b1)) (extractFileDate fn) fn,
           parseSaleRecord (splitFields (jsTrim b2)) (extractFileDate fn) fn]
      ∧ (parseDatFile fn content).parseErrors
        = [{ line := 2, content := String.mk ((jsTrim bad).toList.take 100)
             error := "Unknown record type: " ++ recordTag bad }]) := by
  refine ⟨fun fd fn i st l ls hne htag => ?_,
    runLines_no_errors,
    fun fn => rfl,
    fun fn content b1 bad b2 hcontent hb1 hb2 hbad htag => ?_⟩
  · show runLines fd fn (i + 1) (stepLine fd fn i st l) ls = _
    rw [stepLine_unknown fd fn i st hne htag]
  · have hrun : runLines (extractFileDate fn) fn 0
        { header := none, sales := [], currentSale := none, parseErrors := [] }
        [b1, bad, b2]
        = { header := none
            sales := [parseSaleRecord (splitFields (jsTrim b1)) (extractFileDate fn) fn]
            currentSale := some (parseSaleRecord (splitFields (jsTrim b2))
              (extractFileDate fn) fn)
            parseErrors := [{ line := 2
                              content := String.mk ((jsTrim bad).toList.take 100)
                              error := "Unknown record type: " ++ recordTag bad }] } := by
      show runLines (extractFileDate fn) fn (0 + 1)
        (stepLine (extractFileDate fn) fn 0
          { header := none, sales := [], currentSale := none, parseErrors := [] } b1)
        [bad, b2] = _
      rw [stepLine_B_none _ _ _ _ hb1 rfl]
      show runLines (extractFileDate fn) fn (0 + 1 + 1)
        (stepLine (extractFileDate fn) fn (0 + 1) _ bad) [b2] = _
      rw [stepLine_unknown _ _ _ _ hbad htag]
      show runLines (extractFileDate fn) fn (0 + 1 + 1 + 1)
        (stepLine (extractFileDate fn) fn (0 + 1 + 1) _ b2) [] = _
      rw [stepLine_B_some _ _ _ _ _ hb2 rfl]
      rfl
    constructor
    · unfold parseDatFile
      dsimp only
      rw [hcontent, hrun]
      rfl
    · unfold parseDatFile
      dsimp only
      rw [hcontent, hrun]

/-- Witness for C5: the empty file parses to an empty result, and a
concrete garbage line between two `B` records yields both sales and
exactly one error entry. -/
theorem parseDatFile_resilience_witness :
    parseDatFile "f" ""
      = { filename := "f", fileDate := extractFileDate "f"
          districtCode := extractDistrict "f", header := none
          sales := [], parseErrors := [] }
    ∧ (parseDatFile "f" "B;214;1;1;ts;\nXYZ;oops\nB;214;2;1;ts;").sales
      = [parseSaleRecord (splitFields (jsTrim "B;214;1;1;ts;")) (extractFileDate "f") "f",
         parseSaleRecord (splitFields (jsTrim "B;214;2;1;ts;")) (extractFileDate "f") "f"]
    ∧ (parseDatFile "f" "B;214;1;1;ts;\nXYZ;oops\nB;214;2;1;ts;").parseErrors
      = [{ line := 2, content := String.mk ((jsTrim "XYZ;oops").toList.take 100)
           error := "Unknown record type: " ++ recordTag "XYZ;oops" }] := by
  have h := parseDatFile_resilience.2.2.2 "f" "B;214;1;1;ts;\nXYZ;oops\nB;214;2;1;ts;"
    "B;214;1;1;ts;" "XYZ;oops" "B;214;2;1;ts;"
    (by decide) (by decide) (by decide) (by decide) (by decide)
  exact ⟨parseDatFile_resilience.2.2.1 "f", h.1, h.2⟩
